import Mathlib

/-!
# Verification of the pickleball-wager escrow settlement client

A shallow embedding of `src/pickleball-wager/src/App.tsx`.

JavaScript objects used as string-keyed records (`match.players`,
`match.signatures`) are modelled as association lists `List (String × β)`
(insertion order preserved, keys unique in every reachable state).
The object-spread update `{ ...obj, [k]: v }` is modelled by `setKey`:
it overwrites in place when the key is present and appends otherwise,
exactly as JavaScript does.

External capabilities (wallet public key, wallet signing, the ed25519
verifier, the Supabase store, the ledger balance and transfer submission)
are passed in as explicit parameters, so each handler becomes a pure
function from its inputs and the observed match snapshot to the
resulting snapshot plus the externally visible effects.
-/

namespace PickleballWager

/-- A participant entry: `{ address, name }` in `match.players`. -/
structure Player where
  address : String
  name : String
deriving DecidableEq, Repr

/-- A signature entry: `{ signature, valid }` in `match.signatures`. -/
structure SigEntry where
  signature : String
  valid : Bool
deriving DecidableEq, Repr

/-- The escrow field of a match record: `{ pub, secret }`. -/
structure EscrowInfo where
  pub : String
  secret : String
deriving DecidableEq, Repr

/-- The `Match` record stored in the `matches` table (type `Match` in App.tsx). -/
structure Match where
  id : String
  players : List (String × Player)
  signatures : List (String × SigEntry)
  winner : String
  score : String
  message : String
  escrow : EscrowInfo
deriving DecidableEq, Repr

/-- `Object.keys` of a record. -/
def keys {β : Type} (l : List (String × β)) : List String :=
  l.map Prod.fst

/-- JavaScript property read `obj[k]`: the value at the first entry with key
`k` (unique when keys are nodup). -/
def getVal {β : Type} (k : String) : List (String × β) → Option β
  | [] => none
  | p :: r => if p.1 = k then some p.2 else getVal k r

/-- JavaScript object-spread update `{ ...l, [k]: v }`: overwrite in place if
`k` is already a key, otherwise append the new entry at the end. -/
def setKey {β : Type} (k : String) (v : β) (l : List (String × β)) :
    List (String × β) :=
  if k ∈ keys l then
    l.map (fun p => if p.1 = k then (k, v) else p)
  else
    l ++ [(k, v)]

/-- `createLobby` (App.tsx lines 98-130): requires a connected wallet and a
non-empty player name, then builds a fresh match with the creator in slot
`A1`, empty signatures, empty result fields, and a freshly generated escrow
keypair (passed in as `kpPub`/`kpSecret`). Returns `none` when the
`!publicKey || !playerName` guard fires (the handler alerts and does
nothing). -/
def createLobby (code : String) (publicKey : Option String)
    (playerName : String) (kpPub kpSecret : String) : Option Match :=
  match publicKey with
  | none => none
  | some pk =>
      if playerName = "" then none
      else
        some
          { id := code
            players := [("A1", ⟨pk, playerName⟩)]
            signatures := []
            winner := ""
            score := ""
            message := ""
            escrow := ⟨kpPub, kpSecret⟩ }

/-- Outcome of `joinLobby`: either an input-validation early return, a failed
store lookup ("Lobby not found"), or entry into the lobby carrying the match
record now in the store; `updated` records whether the `B1` write was
performed. -/
inductive JoinOutcome where
  | invalidInput : JoinOutcome
  | matchNotFound : JoinOutcome
  | joined : Match → Bool → JoinOutcome
deriving DecidableEq, Repr

/-- `joinLobby` (App.tsx lines 133-178): requires a lobby code, wallet, and
name; looks the match up in the store (`stored`); if slot `B1` is not yet a
key of `players`, writes the joiner into `B1`; otherwise leaves the record
untouched (no error is raised) and simply enters the lobby with the stored
record. -/
def joinLobby (joiningCode : String) (publicKey : Option String)
    (playerName : String) (stored : Option Match) : JoinOutcome :=
  if joiningCode = "" then .invalidInput
  else
    match publicKey with
    | none => .invalidInput
    | some pk =>
        if playerName = "" then .invalidInput
        else
          match stored with
          | none => .matchNotFound
          | some data =>
              if "B1" ∈ keys data.players then .joined data false
              else
                .joined
                  { data with
                      players := setKey "B1" ⟨pk, playerName⟩ data.players }
                  true

/-- The result message template of `prepMessage` (App.tsx line 184). -/
def resultMessage (winner score : String) : String :=
  "Pickleball result: " ++ winner ++ " wins. Final score: " ++ score

/-- `prepMessage` (App.tsx lines 181-201): guard `!score || !lobbyCode ||
!match` returns with no mutation; otherwise sets `winner`, `message`, and
`score` on the match record. Note: `signatures` is not touched, and the
`winner` argument is not checked against `players`. -/
def prepMessage (winner score lobbyCode : String) (mo : Option Match) :
    Option Match :=
  match mo with
  | none => none
  | some m =>
      if score = "" ∨ lobbyCode = "" then some m
      else
        some
          { m with
              winner := winner
              score := score
              message := resultMessage winner score }

/-- `Object.keys(match.players).find(k => players[k].address === pk)`
(App.tsx lines 208-210): the first slot whose registered address is the
connected wallet's key. -/
def findPlayerKey (m : Match) (pk : String) : Option String :=
  (m.players.find? (fun p => p.2.address == pk)).map Prod.fst

/-- Result of one `signMessageForPlayer` invocation: the resulting match
snapshot, the resulting `payoutTriggered` ref value, and whether a payout
was attempted (i.e. `payoutWinner` was invoked). -/
structure SignOutcome where
  newMatch : Match
  newGuard : Bool
  payoutAttempted : Bool
deriving DecidableEq, Repr

/-- The tail of `signMessageForPlayer` after the signature entry has been
stored (App.tsx lines 238-253): update the local match snapshot with
`updatedSigs`, then compare `signedCount` with `totalPlayers`, check every
entry valid, and when the `payoutTriggered` guard is unset, set it and
attempt the payout. -/
def recordAndMaybePay (updatedSigs : List (String × SigEntry)) (m : Match)
    (guard : Bool) : SignOutcome :=
  if (keys updatedSigs).length = (keys m.players).length then
    if updatedSigs.all (fun p => p.2.valid) && !guard then
      ⟨{ m with signatures := updatedSigs }, true, true⟩
    else ⟨{ m with signatures := updatedSigs }, guard, false⟩
  else ⟨{ m with signatures := updatedSigs }, guard, false⟩

/-- `signMessageForPlayer` (App.tsx lines 204-257). Parameters: `verify` is
the ed25519 verifier `(sig, message, pubKeyBytes) -> bool`; `sig` is the
byte string the wallet's `signMessage` returned; the last argument is the
current `payoutTriggered.current`. The combined guard
`!match.message || !publicKey || !lobbyCode`, and an unmatched wallet
address, return with no mutation. Otherwise the verifier verdict is stored
with the signature under the caller's slot and settlement is checked via
`recordAndMaybePay`. -/
def signMessageForPlayer (verify : String → String → String → Bool) :
    Option String → String → String → Match → Bool → SignOutcome
  | none, _, _, m, g => ⟨m, g, false⟩
  | some pk, lobbyCode, sig, m, g =>
      if m.message = "" ∨ lobbyCode = "" then ⟨m, g, false⟩
      else
        match findPlayerKey m pk with
        | none => ⟨m, g, false⟩
        | some playerKey =>
            recordAndMaybePay
              (setKey playerKey ⟨sig, verify sig m.message pk⟩ m.signatures)
              m g

/-- Externally visible outcome of `payoutWinner` (App.tsx lines 260-292):
`noop` when the `!escrow || !publicKey || !winner || !players[winner]`
guard fires, `escrowEmpty` when the balance check fails, otherwise a single
transfer of `bal - 5000` lamports submitted to the winner's registered
address, confirmed or failed by the ledger. -/
inductive PayoutResult where
  | noop : PayoutResult
  | escrowEmpty : PayoutResult
  | transferred : String → Int → PayoutResult
  | transferFailed : String → Int → PayoutResult
deriving DecidableEq, Repr

/-- `payoutWinner` (App.tsx lines 260-292). `escrow` is the local escrow
keypair state (presence only), `bal` the queried escrow balance in
lamports, `transferOk` whether `sendAndConfirmTransaction` succeeds. The
balance guard is `bal <= 0`; when it passes, a transfer of `bal - 5000`
lamports to `players[winner].address` is constructed and submitted. -/
def payoutWinner (winner : String) (players : List (String × Player))
    (escrow : Option String) (publicKey : Option String)
    (bal : Int) (transferOk : Bool) : PayoutResult :=
  match escrow, publicKey with
  | some _, some _ =>
      if winner = "" then .noop
      else
        match getVal winner players with
        | none => .noop
        | some p =>
            if bal ≤ 0 then .escrowEmpty
            else if transferOk then .transferred p.address (bal - 5000)
            else .transferFailed p.address (bal - 5000)
  | _, _ => .noop

/-- One full settlement-trigger step: `signMessageForPlayer` followed, when
the payout condition fired, by `payoutWinner` (called with the pre-update
`match.winner` and `match.players`, as at App.tsx line 251). The final
guard value is whatever `signMessageForPlayer` left in the ref:
`payoutWinner` never writes `payoutTriggered`. -/
structure TriggerOutcome where
  finalMatch : Match
  finalGuard : Bool
  payout : Option PayoutResult
deriving DecidableEq, Repr

def signAndPayout (verify : String → String → String → Bool)
    (publicKey : Option String) (lobbyCode : String) (sig : String)
    (m : Match) (guard : Bool) (escrow : Option String)
    (bal : Int) (transferOk : Bool) : TriggerOutcome :=
  if (signMessageForPlayer verify publicKey lobbyCode sig m guard).payoutAttempted
  then
    ⟨(signMessageForPlayer verify publicKey lobbyCode sig m guard).newMatch,
      (signMessageForPlayer verify publicKey lobbyCode sig m guard).newGuard,
      some (payoutWinner m.winner m.players escrow publicKey bal transferOk)⟩
  else
    ⟨(signMessageForPlayer verify publicKey lobbyCode sig m guard).newMatch,
      (signMessageForPlayer verify publicKey lobbyCode sig m guard).newGuard,
      none⟩

/-- The local per-client session state relevant to the payout guard:
the `lobbyCode` React state and the `payoutTriggered` ref. -/
structure Session where
  lobbyCode : String
  payoutTriggered : Bool
deriving DecidableEq, Repr

/-- The `useEffect` at App.tsx lines 54-76 with dependency `[lobbyCode]`:
when `setLobbyCode` is called with a value different from the current one
(React re-runs the effect only on an actual change), the effect body runs;
it returns early when the new code is empty, and otherwise resets
`payoutTriggered.current` to `false`. -/
def lobbyCodeEffect (s : Session) (newCode : String) : Session :=
  if newCode = s.lobbyCode then s
  else if newCode = "" then { s with lobbyCode := newCode }
  else { lobbyCode := newCode, payoutTriggered := false }

/-- The spec's "all signed" settlement condition on a match snapshot:
`|signatures| == |participants|` and every recorded entry is valid. -/
def allSignedValid (m : Match) : Prop :=
  m.signatures.length = m.players.length ∧
    ∀ e ∈ m.signatures, e.2.valid = true

instance (m : Match) : Decidable (allSignedValid m) := by
  unfold allSignedValid; infer_instance

/-! ## Association-list lemmas -/

theorem keys_map_overwrite {β : Type} (k : String) (v : β)
    (l : List (String × β)) :
    keys (l.map (fun p => if p.1 = k then (k, v) else p)) = keys l := by
  unfold keys
  rw [List.map_map]
  apply List.map_congr_left
  intro p _
  by_cases h : p.1 = k
  · simp [h]
  · simp [h]

theorem keys_setKey_of_mem {β : Type} {k : String} (v : β)
    {l : List (String × β)} (h : k ∈ keys l) :
    keys (setKey k v l) = keys l := by
  unfold setKey
  rw [if_pos h]
  exact keys_map_overwrite k v l

theorem keys_setKey_of_not_mem {β : Type} {k : String} (v : β)
    {l : List (String × β)} (h : k ∉ keys l) :
    keys (setKey k v l) = keys l ++ [k] := by
  unfold setKey
  rw [if_neg h]
  simp [keys]

theorem mem_keys_setKey {β : Type} {a k : String} (v : β)
    {l : List (String × β)} :
    a ∈ keys (setKey k v l) ↔ a = k ∨ a ∈ keys l := by
  by_cases h : k ∈ keys l
  · rw [keys_setKey_of_mem v h]
    constructor
    · exact Or.inr
    · rintro (rfl | ha)
      · exact h
      · exact ha
  · rw [keys_setKey_of_not_mem v h]
    simp [or_comm]

theorem nodup_keys_setKey {β : Type} {k : String} (v : β)
    {l : List (String × β)} (h : (keys l).Nodup) :
    (keys (setKey k v l)).Nodup := by
  by_cases hk : k ∈ keys l
  · rw [keys_setKey_of_mem v hk]; exact h
  · rw [keys_setKey_of_not_mem v hk]
    simp [List.nodup_append, h, hk]

theorem mem_setKey_eq {β : Type} {k : String} {v : β}
    {l : List (String × β)} {p : String × β}
    (hp : p ∈ setKey k v l) (hk : p.1 = k) : p = (k, v) := by
  unfold setKey at hp
  by_cases h : k ∈ keys l
  · rw [if_pos h] at hp
    obtain ⟨q, hq, rfl⟩ := List.mem_map.mp hp
    by_cases hq1 : q.1 = k
    · simp [hq1]
    · simp only [if_neg hq1] at hk
      exact absurd hk hq1
  · rw [if_neg h] at hp
    rcases List.mem_append.mp hp with hm | hm
    · exact absurd (hk ▸ List.mem_map_of_mem Prod.fst hm) h
    · simpa using hm

theorem setKey_eq_self {β : Type} {k : String} {v : β}
    {l : List (String × β)} (hk : k ∈ keys l)
    (hall : ∀ p ∈ l, p.1 = k → p = (k, v)) : setKey k v l = l := by
  unfold setKey
  rw [if_pos hk]
  conv_rhs => rw [← List.map_id l]
  apply List.map_congr_left
  intro p hp
  by_cases h1 : p.1 = k
  · rw [if_pos h1, ← hall p hp h1]
    rfl
  · rw [if_neg h1]
    rfl

theorem setKey_idem {β : Type} (k : String) (v : β) (l : List (String × β)) :
    setKey k v (setKey k v l) = setKey k v l := by
  apply setKey_eq_self ((mem_keys_setKey v).mpr (Or.inl rfl))
  intro p hp h1
  exact mem_setKey_eq hp h1

theorem getVal_setKey_self {β : Type} (k : String) (v : β)
    (l : List (String × β)) : getVal k (setKey k v l) = some v := by
  unfold setKey
  by_cases h : k ∈ keys l
  · rw [if_pos h]
    induction l with
    | nil => cases h
    | cons p r ih =>
        by_cases hp : p.1 = k
        · simp [getVal, hp]
        · simp only [List.map_cons, if_neg hp, getVal, hp, if_false]
          apply ih
          simp only [keys, List.map_cons, List.mem_cons] at h
          rcases h with h | h
          · exact absurd h.symm hp
          · exact h
  · rw [if_neg h]
    induction l with
    | nil => simp [getVal]
    | cons p r ih =>
        have hp : p.1 ≠ k := by
          intro hc
          exact h (by simp [keys, hc])
        simp only [List.cons_append, getVal, if_neg hp]
        apply ih
        intro hc
        exact h (by simp [keys] at hc ⊢; exact Or.inr hc)

theorem getVal_append_of_some {β : Type} {j : String} {b : β}
    {l l' : List (String × β)} (h : getVal j l = some b) :
    getVal j (l ++ l') = some b := by
  induction l with
  | nil => cases h
  | cons p r ih =>
      by_cases hp : p.1 = j
      · simpa [getVal, hp] using h
      · simp only [getVal, if_neg hp] at h
        simpa [getVal, hp] using ih h

theorem getVal_of_mem_nodup {β : Type} {l : List (String × β)} {k : String}
    {b : β} (hn : (keys l).Nodup) (hm : (k, b) ∈ l) : getVal k l = some b := by
  induction l with
  | nil => cases hm
  | cons p r ih =>
      rcases List.mem_cons.mp hm with h | h
      · rw [← h]
        simp [getVal]
      · have hp : p.1 ≠ k := by
          intro hc
          have hk : k ∈ keys r := by
            simp only [keys]
            exact List.mem_map_of_mem Prod.fst h
          simp only [keys, List.map_cons, List.nodup_cons] at hn
          exact hn.1 (hc ▸ hk)
        simp only [getVal, if_neg hp]
        apply ih _ h
        simp only [keys, List.map_cons, List.nodup_cons] at hn
        exact hn.2

theorem findPlayerKey_mem {m : Match} {pk k : String}
    (h : findPlayerKey m pk = some k) : k ∈ keys m.players := by
  unfold findPlayerKey at h
  obtain ⟨e, he, hk⟩ := Option.map_eq_some'.mp h
  have := List.mem_of_find?_eq_some he
  rw [← hk]
  exact List.mem_map_of_mem Prod.fst this

theorem findPlayerKey_address {m : Match} {pk k : String}
    (hn : (keys m.players).Nodup) (h : findPlayerKey m pk = some k) :
    ∃ p : Player, getVal k m.players = some p ∧ p.address = pk := by
  unfold findPlayerKey at h
  obtain ⟨e, he, hk⟩ := Option.map_eq_some'.mp h
  have hmem := List.mem_of_find?_eq_some he
  have hpred := List.find?_some he
  simp only [beq_iff_eq] at hpred
  refine ⟨e.2, ?_, hpred⟩
  rw [← hk]
  exact getVal_of_mem_nodup hn hmem

/-! ## Structural lemmas about the handlers -/

theorem keys_length {β : Type} (l : List (String × β)) :
    (keys l).length = l.length := by
  simp [keys]

theorem recordAndMaybePay_newMatch (us : List (String × SigEntry)) (m : Match)
    (g : Bool) :
    (recordAndMaybePay us m g).newMatch = { m with signatures := us } := by
  unfold recordAndMaybePay
  split
  · split <;> rfl
  · rfl

theorem recordAndMaybePay_attempted_iff (us : List (String × SigEntry))
    (m : Match) (g : Bool) :
    (recordAndMaybePay us m g).payoutAttempted = true ↔
      ((keys us).length = (keys m.players).length ∧
        us.all (fun p => p.2.valid) = true ∧ g = false) := by
  unfold recordAndMaybePay
  split
  · split <;> simp_all <;> tauto
  · simp_all

theorem recordAndMaybePay_guard_true (us : List (String × SigEntry))
    (m : Match) : (recordAndMaybePay us m true).payoutAttempted = false := by
  unfold recordAndMaybePay
  split
  · split <;> simp_all
  · rfl

theorem recordAndMaybePay_newGuard (us : List (String × SigEntry)) (m : Match)
    (g : Bool) :
    (recordAndMaybePay us m g).newGuard =
      (g || (recordAndMaybePay us m g).payoutAttempted) := by
  unfold recordAndMaybePay
  split
  · split <;> simp_all
  · simp

theorem sign_eq_record (verify : String → String → String → Bool)
    {p k : String} (lc sig : String) {m : Match} (g : Bool)
    (hmsg : m.message ≠ "") (hlc : lc ≠ "")
    (hf : findPlayerKey m p = some k) :
    signMessageForPlayer verify (some p) lc sig m g =
      recordAndMaybePay (setKey k ⟨sig, verify sig m.message p⟩ m.signatures)
        m g := by
  simp only [signMessageForPlayer]
  rw [if_neg (by push_neg; exact ⟨hmsg, hlc⟩), hf]

theorem sign_none (verify : String → String → String → Bool)
    (lc sig : String) (m : Match) (g : Bool) :
    signMessageForPlayer verify none lc sig m g = ⟨m, g, false⟩ := rfl

theorem sign_eq_noop_or_record (verify : String → String → String → Bool)
    (pk : Option String) (lc sig : String) (m : Match) (g : Bool) :
    signMessageForPlayer verify pk lc sig m g = ⟨m, g, false⟩ ∨
    ∃ p k, pk = some p ∧ findPlayerKey m p = some k ∧
      m.message ≠ "" ∧ lc ≠ "" ∧
      signMessageForPlayer verify pk lc sig m g =
        recordAndMaybePay (setKey k ⟨sig, verify sig m.message p⟩ m.signatures)
          m g := by
  cases pk with
  | none => exact Or.inl (sign_none verify lc sig m g)
  | some p =>
      by_cases hc : m.message = "" ∨ lc = ""
      · left
        simp only [signMessageForPlayer]
        rw [if_pos hc]
      · push_neg at hc
        cases hfind : findPlayerKey m p with
        | none =>
            left
            simp only [signMessageForPlayer]
            rw [if_neg (by push_neg; exact hc), hfind]
        | some k =>
            exact Or.inr ⟨p, k, rfl, hfind, hc.1, hc.2,
              sign_eq_record verify lc sig g hc.1 hc.2 hfind⟩

theorem sign_newMatch_eq (verify : String → String → String → Bool)
    (pk : Option String) (lc sig : String) (m : Match) (g : Bool) :
    (signMessageForPlayer verify pk lc sig m g).newMatch =
      { m with
          signatures :=
            (signMessageForPlayer verify pk lc sig m g).newMatch.signatures }
    := by
  rcases sign_eq_noop_or_record verify pk lc sig m g with h | ⟨p, k, _, _, _, _, h⟩
  · rw [h]
  · rw [h, recordAndMaybePay_newMatch]

theorem sign_guard_true (verify : String → String → String → Bool)
    (pk : Option String) (lc sig : String) (m : Match) :
    (signMessageForPlayer verify pk lc sig m true).payoutAttempted = false := by
  rcases sign_eq_noop_or_record verify pk lc sig m true with h | ⟨p, k, _, _, _, _, h⟩
  · rw [h]
  · rw [h]
    exact recordAndMaybePay_guard_true _ _

theorem sign_newGuard_eq (verify : String → String → String → Bool)
    (pk : Option String) (lc sig : String) (m : Match) (g : Bool) :
    (signMessageForPlayer verify pk lc sig m g).newGuard =
      (g || (signMessageForPlayer verify pk lc sig m g).payoutAttempted) := by
  rcases sign_eq_noop_or_record verify pk lc sig m g with h | ⟨p, k, _, _, _, _, h⟩
  · rw [h]
    simp
  · rw [h]
    exact recordAndMaybePay_newGuard _ _ _

theorem sign_attempted_allSigned (verify : String → String → String → Bool)
    (pk : Option String) (lc sig : String) (m : Match) (g : Bool)
    (h : (signMessageForPlayer verify pk lc sig m g).payoutAttempted = true) :
    allSignedValid (signMessageForPlayer verify pk lc sig m g).newMatch ∧
      g = false := by
  rcases sign_eq_noop_or_record verify pk lc sig m g with hn | ⟨p, k, _, _, _, _, he⟩
  · rw [hn] at h
    cases h
  · rw [he] at h ⊢
    obtain ⟨h1, h2, h3⟩ := (recordAndMaybePay_attempted_iff _ _ _).mp h
    refine ⟨?_, h3⟩
    rw [recordAndMaybePay_newMatch]
    constructor
    · simpa [keys_length] using h1
    · intro e hme
      exact List.all_eq_true.mp h2 e hme

/-! ## Claim theorems -/

/-- C1: a payout is attempted exactly when every occupied slot has a
signature and every recorded signature is valid. For a signing step that
reaches the recording point (non-empty result message and lobby code, the
caller registered in a slot) with the local guard unset, the payout trigger
fires iff the resulting snapshot has `|signatures| = |participants|` with
every entry valid; and in full generality a snapshot failing that condition
never triggers a payout. -/
theorem spec_C1_settlement_iff_all_signed
    (verify : String → String → String → Bool) (pk lobbyCode sig k : String)
    (m : Match) (hmsg : m.message ≠ "") (hlc : lobbyCode ≠ "")
    (hf : findPlayerKey m pk = some k) :
    ((signMessageForPlayer verify (some pk) lobbyCode sig m
          false).payoutAttempted = true ↔
      allSignedValid
        (signMessageForPlayer verify (some pk) lobbyCode sig m
          false).newMatch) ∧
    ∀ (v' : String → String → String → Bool) (pk' : Option String)
      (lc' s' : String) (m' : Match) (g' : Bool),
      ¬ allSignedValid (signMessageForPlayer v' pk' lc' s' m' g').newMatch →
        (signMessageForPlayer v' pk' lc' s' m' g').payoutAttempted = false := by
  constructor
  · constructor
    · intro h
      exact (sign_attempted_allSigned _ _ _ _ _ _ h).1
    · intro h
      rw [sign_eq_record verify lobbyCode sig false hmsg hlc hf] at h ⊢
      rw [recordAndMaybePay_newMatch] at h
      obtain ⟨h1, h2⟩ := h
      apply (recordAndMaybePay_attempted_iff _ _ _).mpr
      refine ⟨?_, ?_, rfl⟩
      · simpa [keys_length] using h1
      · exact List.all_eq_true.mpr fun e he => h2 e he
  · intro v' pk' lc' s' m' g' hna
    by_cases ha : (signMessageForPlayer v' pk' lc' s' m' g').payoutAttempted
        = true
    · exact absurd (sign_attempted_allSigned _ _ _ _ _ _ ha).1 hna
    · simpa using ha

/-- A concrete singles match used to instantiate C1: `B1` has already
signed validly, the result message is set, and `A1` is about to sign. -/
def exMatchC1 : Match :=
  { id := "abc123"
    players := [("A1", ⟨"PKA", "Alice"⟩), ("B1", ⟨"PKB", "Bob"⟩)]
    signatures := [("B1", ⟨"sigB", true⟩)]
    winner := "B1"
    score := "11-9"
    message := resultMessage "B1" "11-9"
    escrow := ⟨"EPUB", "ESEC"⟩ }

/-- Witness for C1 at a concrete input. -/
theorem spec_C1_witness :
    ((signMessageForPlayer (fun _ _ _ => true) (some "PKA") "abc123" "sigA"
          exMatchC1 false).payoutAttempted = true ↔
      allSignedValid
        (signMessageForPlayer (fun _ _ _ => true) (some "PKA") "abc123" "sigA"
          exMatchC1 false).newMatch) ∧
    ∀ (v' : String → String → String → Bool) (pk' : Option String)
      (lc' s' : String) (m' : Match) (g' : Bool),
      ¬ allSignedValid (signMessageForPlayer v' pk' lc' s' m' g').newMatch →
        (signMessageForPlayer v' pk' lc' s' m' g').payoutAttempted = false :=
  spec_C1_settlement_iff_all_signed (fun _ _ _ => true) "PKA" "abc123" "sigA"
    "A1" exMatchC1 (by decide) (by decide) (by decide)

/-- C2 counterexample: `prepMessage` does not clear previously collected
signatures. On a match carrying a signature entry for `A1`, proposing a
result leaves that entry in place, so the signatures mapping is not empty
afterwards. -/
theorem spec_C2_counterexample :
    (prepMessage "B1" "11-9" "abc123"
        (some
          { id := "abc123"
            players := [("A1", ⟨"PKA", "Alice"⟩), ("B1", ⟨"PKB", "Bob"⟩)]
            signatures := [("A1", ⟨"sigA", true⟩)]
            winner := ""
            score := ""
            message := ""
            escrow := ⟨"EPUB", "ESEC"⟩ })).map Match.signatures =
      some [("A1", ⟨"sigA", true⟩)] ∧
    ([("A1", (⟨"sigA", true⟩ : SigEntry))] :
        List (String × SigEntry)) ≠ [] := by
  exact ⟨rfl, by decide⟩

/-- C2 amended: proposing a result (`prepMessage`) sets `winner`, `score`
and the recomputed `message`, but leaves the `signatures` mapping exactly
as it was — signatures are carried over, not cleared, to the new
proposal. -/
theorem spec_C2_signatures_preserved (w s lc : String) (m : Match)
    (hs : s ≠ "") (hlc : lc ≠ "") :
    prepMessage w s lc (some m) =
      some { m with winner := w, score := s, message := resultMessage w s } ∧
    ∀ mo : Option Match,
      (prepMessage w s lc mo).map Match.signatures =
        mo.map Match.signatures := by
  constructor
  · simp only [prepMessage]
    rw [if_neg (by push_neg; exact ⟨hs, hlc⟩)]
  · intro mo
    cases mo with
    | none => rfl
    | some m' =>
        simp only [prepMessage]
        split <;> rfl

/-- Witness for the amended C2 at a concrete input. -/
theorem spec_C2_witness :
    prepMessage "A1" "7-11" "zz" (some exMatchC1) =
      some { exMatchC1 with
              winner := "A1"
              score := "7-11"
              message := resultMessage "A1" "7-11" } ∧
    ∀ mo : Option Match,
      (prepMessage "A1" "7-11" "zz" mo).map Match.signatures =
        mo.map Match.signatures :=
  spec_C2_signatures_preserved "A1" "7-11" "zz" exMatchC1 (by decide)
    (by decide)

/-- C3: re-delivering the identical signature for the same slot is a no-op
on the match record and never yields a second payout attempt: running
`signMessageForPlayer` again with the same wallet and signature, on the
state and guard the first run produced, returns the first run's match
snapshot unchanged, and the two runs attempt at most one payout in
total. -/
theorem spec_C3_redelivery_noop (verify : String → String → String → Bool)
    (pk : Option String) (lc sig : String) (m : Match) (g : Bool) :
    (signMessageForPlayer verify pk lc sig
        (signMessageForPlayer verify pk lc sig m g).newMatch
        (signMessageForPlayer verify pk lc sig m g).newGuard).newMatch =
      (signMessageForPlayer verify pk lc sig m g).newMatch ∧
    ¬((signMessageForPlayer verify pk lc sig m g).payoutAttempted = true ∧
      (signMessageForPlayer verify pk lc sig
          (signMessageForPlayer verify pk lc sig m g).newMatch
          (signMessageForPlayer verify pk lc sig m g).newGuard).payoutAttempted
        = true) := by
  rcases sign_eq_noop_or_record verify pk lc sig m g with
    h | ⟨p, k, hp, hf, hmsg, hlc, h⟩
  · simp [h]
  · subst hp
    rw [h, recordAndMaybePay_newMatch]
    have hmsg1 :
        ({ m with
            signatures :=
              setKey k ⟨sig, verify sig m.message p⟩ m.signatures } :
          Match).message ≠ "" := hmsg
    have hf1 :
        findPlayerKey
          { m with
              signatures :=
                setKey k ⟨sig, verify sig m.message p⟩ m.signatures } p =
          some k := hf
    rw [sign_eq_record verify lc sig _ hmsg1 hlc hf1]
    have hset :
        setKey k
            ⟨sig,
              verify sig
                ({ m with
                    signatures :=
                      setKey k ⟨sig, verify sig m.message p⟩ m.signatures } :
                  Match).message p⟩
            ({ m with
                signatures :=
                  setKey k ⟨sig, verify sig m.message p⟩ m.signatures } :
              Match).signatures =
          setKey k ⟨sig, verify sig m.message p⟩ m.signatures :=
      setKey_idem k ⟨sig, verify sig m.message p⟩ m.signatures
    rw [hset, recordAndMaybePay_newMatch]
    constructor
    · rfl
    · rintro ⟨ha1, ha2⟩
      have hguard :
          (recordAndMaybePay
              (setKey k ⟨sig, verify sig m.message p⟩ m.signatures) m
              g).newGuard = true := by
        rw [recordAndMaybePay_newGuard, ha1]
        simp
      rw [hguard] at ha2
      exact absurd ha2 (by rw [recordAndMaybePay_guard_true]; simp)

/-- Witness for C3 at a concrete input: Alice re-delivers her own valid
signature on a match where Bob already signed. -/
theorem spec_C3_witness :
    (signMessageForPlayer (fun _ _ _ => true) (some "PKA") "abc123" "sigA"
        (signMessageForPlayer (fun _ _ _ => true) (some "PKA") "abc123"
          "sigA" exMatchC1 false).newMatch
        (signMessageForPlayer (fun _ _ _ => true) (some "PKA") "abc123"
          "sigA" exMatchC1 false).newGuard).newMatch =
      (signMessageForPlayer (fun _ _ _ => true) (some "PKA") "abc123" "sigA"
        exMatchC1 false).newMatch ∧
    ¬((signMessageForPlayer (fun _ _ _ => true) (some "PKA") "abc123" "sigA"
          exMatchC1 false).payoutAttempted = true ∧
      (signMessageForPlayer (fun _ _ _ => true) (some "PKA") "abc123" "sigA"
          (signMessageForPlayer (fun _ _ _ => true) (some "PKA") "abc123"
            "sigA" exMatchC1 false).newMatch
          (signMessageForPlayer (fun _ _ _ => true) (some "PKA") "abc123"
            "sigA" exMatchC1 false).newGuard).payoutAttempted = true) :=
  spec_C3_redelivery_noop (fun _ _ _ => true) (some "PKA") "abc123" "sigA"
    exMatchC1 false

/-- C4 counterexample: the duplicate-trigger guard is not cleared when the
payout attempt fails. Concrete run: `A1` signs last on a fully-signed valid
match, the trigger fires, the escrow balance is `0`, so the payout reports
escrow-empty and submits nothing — yet `payoutTriggered` stays `true`, so a
later observation in the same lobby session cannot retry. -/
theorem spec_C4_counterexample :
    (signAndPayout (fun _ _ _ => true) (some "PKA") "abc123" "sigA" exMatchC1
        false (some "ESC") 0 true).payout = some .escrowEmpty ∧
    (signAndPayout (fun _ _ _ => true) (some "PKA") "abc123" "sigA" exMatchC1
        false (some "ESC") 0 true).finalGuard = true := by
  exact ⟨rfl, rfl⟩

/-- C4 amended: after any payout attempt — failed (transfer error or
escrow-empty) or successful — the local guard is left set; it is not
cleared on failure. (It is reset only by the lobby-code effect when a new
lobby is entered, see the C10 theorem.) -/
theorem spec_C4_guard_not_cleared (verify : String → String → String → Bool)
    (pk : Option String) (lc sig : String) (m : Match) (g : Bool)
    (esc : Option String) (bal : Int) (ok : Bool)
    (h : (signAndPayout verify pk lc sig m g esc bal ok).payout.isSome) :
    (signAndPayout verify pk lc sig m g esc bal ok).finalGuard = true := by
  by_cases ha : (signMessageForPlayer verify pk lc sig m g).payoutAttempted
      = true
  · unfold signAndPayout
    rw [if_pos ha]
    dsimp only
    rw [sign_newGuard_eq, ha]
    simp
  · unfold signAndPayout at h
    rw [if_neg ha] at h
    simp at h

/-- Witness for the amended C4 at a concrete input (a failed, escrow-empty
payout attempt). -/
theorem spec_C4_witness :
    (signAndPayout (fun _ _ _ => true) (some "PKA") "abc123" "sigB"
        exMatchC1 false (some "ESC") 0 false).finalGuard = true :=
  spec_C4_guard_not_cleared (fun _ _ _ => true) (some "PKA") "abc123" "sigB"
    exMatchC1 false (some "ESC") 0 false (by decide)

/-- C5 counterexample: with escrow balance `3000` lamports — at or below
the `5000`-lamport fee reserve but positive — the code does not fail with
escrow-empty: it submits a transfer of `3000 - 5000 = -2000` lamports to
the winner's address. -/
theorem spec_C5_counterexample :
    payoutWinner "B1" [("A1", ⟨"PKA", "Alice"⟩), ("B1", ⟨"PKB", "Bob"⟩)]
        (some "ESC") (some "PKA") 3000 true =
      .transferred "PKB" (-2000) ∧
    (PayoutResult.transferred "PKB" (-2000)) ≠ .escrowEmpty := by
  exact ⟨rfl, by decide⟩

/-- C5 amended: the escrow-empty guard is `balance ≤ 0`, not
`balance ≤ 5000`: a payout attempt that reaches the balance check fails
with escrow-empty iff the balance is at or below zero, and for any positive
balance a single transfer of `balance - 5000` lamports is submitted to the
winner's registered address (succeeding or failing with the ledger). -/
theorem spec_C5_balance_guard (winner : String)
    (players : List (String × Player)) (p : Player) (esc pk : String)
    (bal : Int) (ok : Bool) (hw : winner ≠ "")
    (hp : getVal winner players = some p) :
    (bal ≤ 0 →
      payoutWinner winner players (some esc) (some pk) bal ok =
        .escrowEmpty) ∧
    (0 < bal →
      payoutWinner winner players (some esc) (some pk) bal ok =
        if ok then .transferred p.address (bal - 5000)
        else .transferFailed p.address (bal - 5000)) := by
  constructor
  · intro hb
    unfold payoutWinner
    dsimp only
    rw [if_neg hw, hp]
    dsimp only
    rw [if_pos hb]
  · intro hb
    unfold payoutWinner
    dsimp only
    rw [if_neg hw, hp]
    dsimp only
    rw [if_neg (by omega : ¬ bal ≤ 0)]

/-- Witness for the amended C5: balance `1000000` yields a submitted
transfer of `995000` lamports to the winner's address, and balance `0`
yields escrow-empty. -/
theorem spec_C5_witness :
    (payoutWinner "B1" [("A1", ⟨"PKA", "Alice"⟩), ("B1", ⟨"PKB", "Bob"⟩)]
        (some "ESC") (some "PKA") 1000000 true =
      .transferred "PKB" 995000) ∧
    (payoutWinner "B1" [("A1", ⟨"PKA", "Alice"⟩), ("B1", ⟨"PKB", "Bob"⟩)]
        (some "ESC") (some "PKA") 0 true = .escrowEmpty) := by
  constructor
  · have h :=
      (spec_C5_balance_guard "B1"
          [("A1", ⟨"PKA", "Alice"⟩), ("B1", ⟨"PKB", "Bob"⟩)] ⟨"PKB", "Bob"⟩
          "ESC" "PKA" 1000000 true (by decide) (by decide)).2 (by decide)
    simpa using h
  · exact
      (spec_C5_balance_guard "B1"
          [("A1", ⟨"PKA", "Alice"⟩), ("B1", ⟨"PKB", "Bob"⟩)] ⟨"PKB", "Bob"⟩
          "ESC" "PKA" 0 true (by decide) (by decide)).1 (by decide)

/-- C6: recording a signature always stores the entry together with the
verifier's verdict: after a signing step by the wallet registered at slot
`k`, the stored entry at `k` is exactly the signature bytes paired with
`verify(sig, resultMessage, registered address of k)` — for every verifier,
so an invalid signature is stored with `valid = false`, not dropped. -/
theorem spec_C6_verdict_stored (verify : String → String → String → Bool)
    (pk lc sig k : String) (m : Match) (g : Bool)
    (hn : (keys m.players).Nodup) (hmsg : m.message ≠ "") (hlc : lc ≠ "")
    (hf : findPlayerKey m pk = some k) :
    ∃ p : Player, getVal k m.players = some p ∧ p.address = pk ∧
      getVal k
          (signMessageForPlayer verify (some pk) lc sig m
            g).newMatch.signatures =
        some ⟨sig, verify sig m.message p.address⟩ := by
  obtain ⟨p, hp, haddr⟩ := findPlayerKey_address hn hf
  refine ⟨p, hp, haddr, ?_⟩
  rw [sign_eq_record verify lc sig g hmsg hlc hf, recordAndMaybePay_newMatch,
    haddr]
  exact getVal_setKey_self k _ m.signatures

/-- Witness for C6 at a concrete input, with a verifier that rejects
everything: the entry is stored with `valid = false` rather than
dropped. -/
theorem spec_C6_witness :
    ∃ p : Player, getVal "A1" exMatchC1.players = some p ∧
      p.address = "PKA" ∧
      getVal "A1"
          (signMessageForPlayer (fun _ _ _ => false) (some "PKA") "abc123"
            "badSig" exMatchC1 false).newMatch.signatures =
        some ⟨"badSig", (fun _ _ _ => false) "badSig" exMatchC1.message
          p.address⟩ :=
  spec_C6_verdict_stored (fun _ _ _ => false) "PKA" "abc123" "badSig" "A1"
    exMatchC1 false (by decide) (by decide) (by decide) (by decide)

/-- A concrete match with only the creator in slot `A1` (slot `B1`
unoccupied). -/
def exMatchC7 : Match :=
  { id := "abc123"
    players := [("A1", ⟨"PKA", "Alice"⟩)]
    signatures := []
    winner := ""
    score := ""
    message := ""
    escrow := ⟨"EPUB", "ESEC"⟩ }

/-- C7 counterexample: proposing an unoccupied winner is not rejected.
With only `A1` occupied, `prepMessage "B1"` succeeds and sets
`winner = "B1"`, `score` and `message` — there is no `InvalidSlot`
failure. -/
theorem spec_C7_counterexample :
    prepMessage "B1" "11-9" "abc123" (some exMatchC7) =
      some { exMatchC7 with
              winner := "B1"
              score := "11-9"
              message := resultMessage "B1" "11-9" } ∧
    "B1" ∉ keys exMatchC7.players := by
  exact ⟨rfl, by decide⟩

/-- C7 amended: `prepMessage` requires a non-empty `finalScore` (an empty
score leaves the match unchanged), but performs no winner-slot validation:
for every winner string, occupied or not, it sets `winner`, `score` and the
recomputed `message`. (The interface disables the propose buttons for
unoccupied slots, but the operation itself does not check.) -/
theorem spec_C7_no_slot_validation (w lc : String) (m : Match) :
    prepMessage w "" lc (some m) = some m ∧
    ∀ s, s ≠ "" → lc ≠ "" →
      prepMessage w s lc (some m) =
        some { m with
                winner := w
                score := s
                message := resultMessage w s } := by
  constructor
  · simp [prepMessage]
  · intro s hs hlc
    simp only [prepMessage]
    rw [if_neg (by push_neg; exact ⟨hs, hlc⟩)]

/-- Witness for the amended C7: the unoccupied slot `B1` is accepted as
winner at a concrete input. -/
theorem spec_C7_witness :
    prepMessage "B1" "11-9" "abc123" (some exMatchC7) =
      some { exMatchC7 with
              winner := "B1"
              score := "11-9"
              message := resultMessage "B1" "11-9" } :=
  (spec_C7_no_slot_validation "B1" "abc123" exMatchC7).2 "11-9" (by decide)
    (by decide)

/-- A concrete match whose slot `B1` is already occupied by Bob. -/
def exMatchC8 : Match :=
  { id := "join01"
    players := [("A1", ⟨"PKA", "Alice"⟩), ("B1", ⟨"PKB", "Bob"⟩)]
    signatures := []
    winner := ""
    score := ""
    message := ""
    escrow := ⟨"EPUB2", "ESEC2"⟩ }

/-- C8 counterexample: a join by a different address on an occupied slot is
not rejected with `SlotOccupied`: Eve (address `PKE`, different from the
occupant `PKB`) joins the lobby successfully — the outcome is a normal
entry into the lobby with the match record unmodified, and no error of any
kind is raised. -/
theorem spec_C8_counterexample :
    joinLobby "join01" (some "PKE") "Eve" (some exMatchC8) =
      .joined exMatchC8 false ∧
    getVal "B1" exMatchC8.players = some ⟨"PKB", "Bob"⟩ ∧
    ("PKE" : String) ≠ "PKB" := by
  exact ⟨rfl, rfl, by decide⟩

/-- C8 amended: `joinLobby` never overwrites an occupied slot — when `B1`
is already populated the join is a silent no-op on the match record (the
client still enters the lobby; no `SlotOccupied` error exists in the code,
even for a different address); when `B1` is free the joiner is written into
it; and every already-occupied slot keeps its occupant across a join. -/
theorem spec_C8_slot_stable (c n pk : String) (m : Match) (hc : c ≠ "")
    (hn : n ≠ "") :
    ("B1" ∈ keys m.players →
      joinLobby c (some pk) n (some m) = .joined m false) ∧
    ("B1" ∉ keys m.players →
      joinLobby c (some pk) n (some m) =
        .joined { m with players := setKey "B1" ⟨pk, n⟩ m.players } true) ∧
    (∀ j q, getVal j m.players = some q →
      ∀ m' u, joinLobby c (some pk) n (some m) = .joined m' u →
        getVal j m'.players = some q) := by
  have hjoin : joinLobby c (some pk) n (some m) =
      if "B1" ∈ keys m.players then JoinOutcome.joined m false
      else
        JoinOutcome.joined
          { m with players := setKey "B1" ⟨pk, n⟩ m.players } true := by
    unfold joinLobby
    rw [if_neg hc]
    dsimp only
    rw [if_neg hn]
  refine ⟨?_, ?_, ?_⟩
  · intro hB
    rw [hjoin, if_pos hB]
  · intro hB
    rw [hjoin, if_neg hB]
  · intro j q hq m' u hj
    rw [hjoin] at hj
    by_cases hB : "B1" ∈ keys m.players
    · rw [if_pos hB] at hj
      injection hj with h1 _
      subst h1
      exact hq
    · rw [if_neg hB] at hj
      injection hj with h1 _
      subst h1
      show getVal j (setKey "B1" ⟨pk, n⟩ m.players) = some q
      unfold setKey
      rw [if_neg hB]
      exact getVal_append_of_some hq

/-- Witness for the amended C8: Eve's join on the occupied `B1` leaves the
record untouched, while a join on a free `B1` writes the joiner. -/
theorem spec_C8_witness :
    joinLobby "join01" (some "PKE") "Eve" (some exMatchC8) =
      .joined exMatchC8 false :=
  (spec_C8_slot_stable "join01" "Eve" "PKE" exMatchC8 (by decide)
    (by decide)).1 (by decide)

/-- Match states reachable by the client's own operations: creation
followed by any sequence of joins, result proposals and signing steps. -/
inductive Reachable : Match → Prop where
  | created (code pk name kpPub kpSecret : String) (m : Match)
      (h : createLobby code (some pk) name kpPub kpSecret = some m) :
      Reachable m
  | joined (prev : Match) (c pk n : String) (m : Match) (u : Bool)
      (hprev : Reachable prev)
      (h : joinLobby c (some pk) n (some prev) = .joined m u) : Reachable m
  | proposed (prev : Match) (w s lc : String) (m : Match)
      (hprev : Reachable prev)
      (h : prepMessage w s lc (some prev) = some m) : Reachable m
  | signed (prev : Match) (verify : String → String → String → Bool)
      (pk : Option String) (lc sig : String) (g : Bool)
      (hprev : Reachable prev) :
      Reachable (signMessageForPlayer verify pk lc sig prev g).newMatch

/-- The structural invariant carried by every reachable match: both key
lists are duplicate-free and signature keys are player keys. -/
def MatchInv (m : Match) : Prop :=
  (keys m.players).Nodup ∧ (keys m.signatures).Nodup ∧
    ∀ k ∈ keys m.signatures, k ∈ keys m.players

theorem reachable_inv {m : Match} (h : Reachable m) : MatchInv m := by
  induction h with
  | created code pk name kpPub kpSecret m h =>
      unfold createLobby at h
      dsimp only at h
      split at h
      · cases h
      · injection h with h'
        subst h'
        refine ⟨by simp [keys], by simp [keys], ?_⟩
        intro k hk
        simp [keys] at hk
  | joined prev c pk n m u hprev h ih =>
      unfold joinLobby at h
      split at h
      · cases h
      · dsimp only at h
        split at h
        · cases h
        · split at h
          · injection h with h1 _
            subst h1
            exact ih
          · rename_i hB
            injection h with h1 _
            subst h1
            obtain ⟨hp, hs, hsub⟩ := ih
            refine ⟨nodup_keys_setKey _ hp, hs, ?_⟩
            intro k hk
            exact (mem_keys_setKey _).mpr (Or.inr (hsub k hk))
  | proposed prev w s lc m hprev h ih =>
      simp only [prepMessage] at h
      split at h <;> (injection h with h1; subst h1; exact ih)
  | signed prev verify pk lc sig g hprev ih =>
      rcases sign_eq_noop_or_record verify pk lc sig prev g with
        hn | ⟨p, k, _, hf, _, _, he⟩
      · rw [hn]
        exact ih
      · rw [he, recordAndMaybePay_newMatch]
        obtain ⟨hp, hs, hsub⟩ := ih
        refine ⟨hp, nodup_keys_setKey _ hs, ?_⟩
        intro j hj
        rcases (mem_keys_setKey _).mp hj with rfl | hj'
        · exact findPlayerKey_mem hf
        · exact hsub j hj'

/-- C9: in every reachable match state, every key of `signatures` is a key
of `players`, and consequently there are never more signature entries than
participants. -/
theorem spec_C9_signatures_subset (m : Match) (h : Reachable m) :
    (∀ k ∈ keys m.signatures, k ∈ keys m.players) ∧
      m.signatures.length ≤ m.players.length := by
  obtain ⟨hp, hs, hsub⟩ := reachable_inv h
  refine ⟨hsub, ?_⟩
  have h1 : (keys m.signatures).length ≤ (keys m.players).length :=
    List.Subperm.length_le (hs.subperm fun a ha => hsub a ha)
  simpa [keys_length] using h1

/-- A freshly created match, for the C9 witness. -/
def exMatchC9 : Match :=
  { id := "w9"
    players := [("A1", ⟨"PK9", "Ana"⟩)]
    signatures := []
    winner := ""
    score := ""
    message := ""
    escrow := ⟨"E9", "S9"⟩ }

/-- Witness for C9 at a concrete reachable state. -/
theorem spec_C9_witness :
    (∀ k ∈ keys exMatchC9.signatures, k ∈ keys exMatchC9.players) ∧
      exMatchC9.signatures.length ≤ exMatchC9.players.length :=
  spec_C9_signatures_subset exMatchC9
    (Reachable.created "w9" "PK9" "Ana" "E9" "S9" exMatchC9 rfl)

/-- C10: the payout guard is scoped to the local lobby session. Whenever
the lobby code actually changes to a non-empty value — entering any lobby
via create or join, including re-entering a previously visited match — the
`[lobbyCode]` effect resets `payoutTriggered` to `false`, whatever its
previous value, so the client may trigger a payout again. -/
theorem spec_C10_guard_reset (s : Session) (c : String)
    (hchange : c ≠ s.lobbyCode) (hne : c ≠ "") :
    (lobbyCodeEffect s c).payoutTriggered = false ∧
      (lobbyCodeEffect s c).lobbyCode = c := by
  unfold lobbyCodeEffect
  rw [if_neg hchange, if_neg hne]
  exact ⟨rfl, rfl⟩

/-- Witness for C10: a session that already triggered a payout re-enters a
match under a fresh lobby code and the guard is reset. -/
theorem spec_C10_witness :
    (lobbyCodeEffect ⟨"old123", true⟩ "abc123").payoutTriggered = false ∧
      (lobbyCodeEffect ⟨"old123", true⟩ "abc123").lobbyCode = "abc123" :=
  spec_C10_guard_reset ⟨"old123", true⟩ "abc123" (by decide) (by decide)

end PickleballWager
